import Mathlib

/-!
Verification model of the EPIC EHR integration platform's API gateway
(`services/api-gateway/src/server.js`).

The gateway is embedded shallowly:
* JavaScript strings that the gateway splits character-by-character
  (the `Authorization` header, JWT token strings) are modelled as `List Char`;
  `splitOnChar` mirrors `String.prototype.split` with a one-character separator.
* The `jsonwebtoken` library (`jwt.sign` / `jwt.verify`, HS256) is modelled by a
  concrete injective token encoding: the signed token is
  `payload-bytes ++ '.' ++ mac(secret, payload-bytes)`, and verification
  re-computes the mac over the received payload bytes and checks the expiry
  claim (`now < exp`), matching the library's documented behaviour
  (round-trip with the same secret, rejection of a wrong secret, of tampered
  payload bytes, and of an expired token).
* Express middleware chains become explicit functions from requests to an
  outcome (a direct response, or a forward to an upstream) together with the
  side effects (audit log records, token-issuance log entries) they emit.
-/

set_option maxRecDepth 1000000

set_option maxHeartbeats 2000000

namespace Gateway

/-- JavaScript `String.prototype.split` with a single-character separator,
over the string's characters. `splitOnChar sep l` never returns `[]`;
on the empty list it returns `[[]]`, as `"".split(sep)` returns `[""]`. -/
def splitOnChar (sep : Char) : List Char → List (List Char)
  | [] => [[]]
  | c :: rest =>
    let r := splitOnChar sep rest
    if c = sep then [] :: r else (c :: r.headI) :: r.tail

/-! ### Model of the `jsonwebtoken` library (HS256 sign / verify)

A token's wire form is a `List Char` over the alphabet
`'_', 'x', ',', '.', '|'`; in particular it contains no space, so the
`Authorization`-header split of the gateway treats it as one word, exactly as a
base64url-encoded JWT is one word. -/

/-- Little-endian binary digits of `n` over `'0'`/`'1'`, with an explicit
fuel argument so the recursion is structural (and hence reduces inside the
kernel); `toBitsF fuel n` is the digits of `n` whenever `n ≤ fuel`. -/
def toBitsF : Nat → Nat → List Char
  | 0, _ => []
  | fuel + 1, n =>
    if n = 0 then []
    else (if n % 2 = 1 then '1' else '0') :: toBitsF fuel (n / 2)

/-- Little-endian binary digit encoding of a natural number (`0` encodes to
the empty list). -/
def natBits (n : Nat) : List Char := toBitsF n n

/-- Value of a little-endian binary digit list (any character other than
`'1'` counts as a zero digit). -/
def ofBits : List Char → Nat
  | [] => 0
  | b :: bs => (if b = '1' then 1 else 0) + 2 * ofBits bs

/-- One character of a string claim: `'_'` marker followed by the binary code
point. Free of `','`, `'.'`, `'|'` and spaces. -/
def encChar (c : Char) : List Char := '_' :: natBits c.toNat

/-- Encoding of the characters of a string claim. -/
def encFieldL : List Char → List Char
  | [] => []
  | c :: cs => encChar c ++ encFieldL cs

/-- Encoding of a string claim. -/
def encField (s : String) : List Char := encFieldL s.toList

/-- Decode one string-claim character group. -/
def decodeGroup (g : List Char) : Char := Char.ofNat (ofBits g)

/-- Decode a string claim: split on the `'_'` markers. -/
def decodeField (l : List Char) : Option String :=
  match splitOnChar '_' l with
  | [] => none
  | g :: gs => if g = [] then some (String.mk (gs.map decodeGroup)) else none

/-- Claim set signed into a token by the gateway's `/oauth/token` handler:
`jwt.sign({client_id, scope, iss}, secret, {expiresIn: '1h'})` — the library
adds `iat` (issue time, seconds) and `exp = iat + 3600`. -/
structure JwtPayload where
  client_id : String
  scope : String
  iss : String
  iat : Nat
  exp : Nat
deriving DecidableEq, Repr

/-- Wire encoding of the claim set: the string claims and the two numeric
claims, separated by `','`. -/
def payloadEnc (p : JwtPayload) : List Char :=
  encField p.client_id ++ ',' ::
    (encField p.scope ++ ',' ::
      (encField p.iss ++ ',' ::
        (natBits p.iat ++ ',' :: natBits p.exp)))

/-- Decode a claim set from its wire encoding. -/
def decodePayload (l : List Char) : Option JwtPayload :=
  match splitOnChar ',' l with
  | [a, b, c, d, e] =>
    match decodeField a, decodeField b, decodeField c with
    | some ci, some sc, some is => some ⟨ci, sc, is, ofBits d, ofBits e⟩
    | _, _, _ => none
  | _ => none

/-- Keyed mac over the payload's wire bytes: the encoded secret, a `'|'`
separator, then the payload bytes. Tampering with the payload bytes or signing
with a different secret changes the mac. -/
def macSig (secret : String) (payloadBytes : List Char) : List Char :=
  encField secret ++ '|' :: payloadBytes

/-- Model of `jwt.sign` (HS256): payload wire bytes, `'.'`, mac. -/
def signToken (p : JwtPayload) (secret : String) : List Char :=
  payloadEnc p ++ '.' :: macSig secret (payloadEnc p)

/-- Model of `jwt.verify` (HS256): split the token at `'.'`, decode the
payload, recompute the mac over the received payload bytes with the supplied
secret, and check the expiry claim — `jsonwebtoken` rejects a token once
`now ≥ exp`. Any failure (malformed token, wrong mac, expired) yields `none`,
as `jwt.verify` passes an error to its callback. -/
def verifyToken (t : List Char) (secret : String) (now : Nat) : Option JwtPayload :=
  match splitOnChar '.' t with
  | [pl, sg] =>
    match decodePayload pl with
    | some p => if sg = macSig secret pl ∧ now < p.exp then some p else none
    | none => none
  | _ => none

/-! ### The gateway's data model -/

/-- Startup configuration of the gateway, after resolution of the environment
variables read in `server.js` (`JWT_SECRET`, `FHIR_SERVER_URL`,
`HL7_PROCESSOR_URL`, `EPIC_CONNECTOR_URL`, `AUDIT_SERVICE_URL`, each with a
compiled-in default). Note there is no field for an upstream credential: no
environment variable for one is read anywhere in `server.js`. -/
structure Config where
  jwtSecret : String
  fhirServerUrl : String
  hl7ProcessorUrl : String
  epicConnectorUrl : String
  auditServiceUrl : String
deriving DecidableEq, Repr

/-- JSON request body, restricted to the fields the gateway reads
(`req.body.messageType/content/messageId` and
`req.body.grant_type/client_id/client_secret`); a missing key is `none`. -/
structure Body where
  messageType : Option String
  content : Option String
  messageId : Option String
  grant_type : Option String
  client_id : Option String
  client_secret : Option String
deriving DecidableEq, Repr

/-- A request body with every field absent. -/
def emptyBody : Body := ⟨none, none, none, none, none, none⟩

/-- An inbound HTTP request as the gateway reads it: method, path, the raw
`Authorization` header value (a JavaScript string, modelled as `List Char`;
`none` when absent), caller IP, `User-Agent`, and the decoded JSON body. -/
structure Request where
  method : String
  path : String
  authorization : Option (List Char)
  ip : String
  userAgent : Option String
  body : Body
deriving DecidableEq, Repr

/-- One field-level entry of an `express-validator` `errors.array()` result:
the offending field's path and its message (`'Invalid value'` when the
validator carries no `withMessage`). -/
structure FieldError where
  path : String
  msg : String
deriving DecidableEq, Repr

/-- The audit record built by the `auditLogger` middleware
(`logger.info('API Access', auditData)`): timestamp, method, url, ip,
userAgent, userId — and no other field; in particular it has no outcome
field, being emitted before dispatch. -/
structure AuditData where
  timestamp : Nat
  method : String
  url : String
  ip : String
  userAgent : Option String
  userId : String
deriving DecidableEq, Repr

/-- JSON bodies of the responses the gateway itself produces. -/
inductive RespBody
  | health
  | jsonError (error : String)
  | validationErrors (errors : List FieldError)
  | hl7Accepted (message : String) (messageId : String)
  | tokenSuccess (access_token : List Char) (token_type : String)
      (expires_in : Nat) (scope : String)
  | text (msg : String)
deriving DecidableEq, Repr

/-- The four upstream services of the route table. -/
inductive Target
  | fhir
  | hl7
  | epic
  | audit
deriving DecidableEq, Repr

/-- What the gateway does with a request: answer it itself, or hand it to
`http-proxy-middleware` to be forwarded to an upstream (with the upstream base
URL and the basic-auth credential injected into the outbound request, if
any). A `proxy` outcome is exactly one upstream call. -/
inductive Outcome
  | respond (status : Nat) (body : RespBody)
  | proxy (target : Target) (baseUrl : String) (outboundBasicAuth : Option String)
deriving DecidableEq, Repr

/-- Whether an outcome makes an upstream call. -/
def Outcome.isProxy : Outcome → Bool
  | .respond _ _ => false
  | .proxy _ _ _ => true

/-- Side effects of handling one request: the `'API Access'` audit records
emitted by `auditLogger`, and the `'OAuth token issued'` log entries (the
client ids logged) emitted by the token endpoint. -/
structure Effects where
  audits : List AuditData
  oauthLogs : List String
deriving DecidableEq, Repr

/-- No side effects. -/
def noEffects : Effects := ⟨[], []⟩

/-! ### Auth Gate (`authenticateToken` middleware, server.js lines 71–87) -/

/-- A value of a JavaScript property lookup on the decoded claims object. -/
inductive JsVal
  | str (s : String)
  | num (n : Nat)
deriving DecidableEq, Repr

/-- Property access on the decoded JWT claims object: the payload signed by
`/oauth/token` has exactly the keys `client_id`, `scope`, `iss`, plus the
library-added `iat` and `exp`; any other key — in particular `id` — is
`undefined`. -/
def JwtPayload.jsGet (p : JwtPayload) : String → Option JsVal
  | "client_id" => some (.str p.client_id)
  | "scope" => some (.str p.scope)
  | "iss" => some (.str p.iss)
  | "iat" => some (.num p.iat)
  | "exp" => some (.num p.exp)
  | _ => none

/-- JavaScript truthiness of a property-lookup result (`undefined`, `''` and
`0` are falsy). -/
def jsTruthy : Option JsVal → Bool
  | none => false
  | some (.str s) => !(s == "")
  | some (.num n) => !(n == 0)

/-- JavaScript `v || d` coerced to a string, as in
`req.user?.id || 'anonymous'`. -/
def jsOrString (v : Option JsVal) (d : String) : String :=
  if jsTruthy v then
    match v with
    | some (.str s) => s
    | some (.num n) => toString n
    | none => d
  else d

/-- Token extraction of `authenticateToken`:
`const token = authHeader && authHeader.split(' ')[1]` — the value between
the first and second space of the header, whatever the first word is; `none`
when the header is absent, has no second word, or the second word is empty
(the falsy `!token` check). -/
def extractToken : Option (List Char) → Option (List Char)
  | none => none
  | some h =>
    match (splitOnChar ' ' h)[1]? with
    | some t => if t = [] then none else some t
    | none => none

/-- Result of the `authenticateToken` middleware: 401 `Access token required`
when no token was extracted, 403 `Invalid or expired token` when `jwt.verify`
fails, else the verified claims attached as `req.user`. -/
inductive AuthResult
  | missing
  | invalid
  | ok (user : JwtPayload)
deriving DecidableEq, Repr

/-- The `authenticateToken` middleware (server.js lines 71–87). -/
def authenticateToken (authHeader : Option (List Char)) (secret : String)
    (now : Nat) : AuthResult :=
  match extractToken authHeader with
  | none => .missing
  | some t =>
    match verifyToken t secret now with
    | none => .invalid
    | some p => .ok p

/-- The `auditLogger` middleware's record (server.js lines 90–102):
`userId: req.user?.id || 'anonymous'`. -/
def mkAudit (now : Nat) (req : Request) (user : Option JwtPayload) : AuditData :=
  ⟨now, req.method, req.path, req.ip, req.userAgent,
   jsOrString (user.bind (fun p => p.jsGet "id")) "anonymous"⟩

/-! ### Token Issuer (`POST /oauth/token`, server.js lines 225–257) -/

/-- The fixed scope granted by the gateway. -/
def defaultScope : String := "fhir:read fhir:write hl7:process"

/-- The `express-validator` chain of the token endpoint:
`body('grant_type').equals('client_credentials')`,
`body('client_id').notEmpty()`, `body('client_secret').notEmpty()` — a
missing field fails its validator, and each failing validator adds one
field-level entry (default message `'Invalid value'`). -/
def validateTokenReq (b : Body) : List FieldError :=
  (if b.grant_type = some "client_credentials" then []
   else [⟨"grant_type", "Invalid value"⟩]) ++
  (if b.client_id.getD "" = "" then [⟨"client_id", "Invalid value"⟩] else []) ++
  (if b.client_secret.getD "" = "" then [⟨"client_secret", "Invalid value"⟩]
   else [])

/-- The `POST /oauth/token` handler: on any validation error, 400 with
`errors.array()`; otherwise it signs `{client_id, scope, iss}` with the
configured secret and 1-hour expiry and answers 200 — the value of
`client_secret` is never compared against anything. The success path also
emits the `'OAuth token issued'` log entry; the rejection path emits
nothing. -/
def oauthToken (cfg : Config) (now : Nat) (b : Body) : Outcome × Effects :=
  let errs := validateTokenReq b
  if errs.isEmpty then
    let payload : JwtPayload :=
      ⟨b.client_id.getD "", defaultScope, "epic-ehr-gateway", now, now + 3600⟩
    (.respond 200 (.tokenSuccess (signToken payload cfg.jwtSecret) "Bearer"
        3600 defaultScope),
     ⟨[], [b.client_id.getD ""]⟩)
  else
    (.respond 400 (.validationErrors errs), noEffects)

/-! ### Legacy HL7 endpoint handler (`POST /hl7/message`, server.js 159–182) -/

/-- Validators of the legacy HL7 endpoint: `body('messageType').notEmpty()`
and `body('content').notEmpty()`, each with its `withMessage`. -/
def hl7MessageValidate (b : Body) : List FieldError :=
  (if b.messageType.getD "" = "" then [⟨"messageType", "Message type is required"⟩]
   else []) ++
  (if b.content.getD "" = "" then [⟨"content", "HL7 content is required"⟩]
   else [])

/-- The legacy `POST /hl7/message` route handler: 400 with the validation
errors, else 202 with `messageId: req.body.messageId || Date.now().toString()`
(the falsy `||` also replaces an empty-string id). -/
def hl7MessageHandler (now : Nat) (b : Body) : Outcome :=
  let errs := hl7MessageValidate b
  if errs.isEmpty then
    .respond 202 (.hl7Accepted "HL7 message queued for processing"
      (match b.messageId with
       | some s => if s = "" then toString now else s
       | none => toString now))
  else
    .respond 400 (.validationErrors errs)

/-! ### Route Table (the Express registration order of server.js) -/

/-- The compiled-in basic-auth pair of the FHIR proxy registration:
`auth: 'admin:admin123'` (server.js line 117). -/
def fhirAuthCredential : String := "admin:admin123"

/-- Options object passed to `createProxyMiddleware` for the `/fhir` mount:
target from configuration, but `auth` a string literal in the code. -/
structure ProxyOptions where
  target : String
  changeOrigin : Bool
  auth : Option String
deriving DecidableEq, Repr

/-- The `/fhir` proxy's options (server.js lines 114–136). -/
def fhirProxyOptions (cfg : Config) : ProxyOptions :=
  ⟨cfg.fhirServerUrl, true, some fhirAuthCredential⟩

/-- Express mount-path matching of `app.use(m, ...)`: the path equals the
mount, or continues it with a `/`. -/
def mountMatch (m p : String) : Bool :=
  p.toList == m.toList || List.isPrefixOf (m.toList ++ ['/']) p.toList

/-- Which registered handler chain a request reaches, in the registration
order of server.js: `GET /health`, `app.use('/fhir')`, `app.use('/hl7')`,
`app.post('/hl7/message')`, `app.use('/epic')`, `app.use('/audit')`,
`app.post('/oauth/token')`, then the `'*'` 404 handler. -/
inductive RouteChoice
  | health
  | fhirProxy
  | hl7Proxy
  | hl7Message
  | epicProxy
  | auditProxy
  | oauthTokenRoute
  | noMatch
deriving DecidableEq, Repr

/-- Resolve a request to the first matching registration. -/
def matchRoute (method path : String) : RouteChoice :=
  if method == "GET" && path == "/health" then .health
  else if mountMatch "/fhir" path then .fhirProxy
  else if mountMatch "/hl7" path then .hl7Proxy
  else if method == "POST" && path == "/hl7/message" then .hl7Message
  else if mountMatch "/epic" path then .epicProxy
  else if mountMatch "/audit" path then .auditProxy
  else if method == "POST" && path == "/oauth/token" then .oauthTokenRoute
  else .noMatch

/-- The four mounts guarded by `authenticateToken` (the legacy HL7 route also
lists it). -/
def isProtectedRoute : RouteChoice → Bool
  | .fhirProxy => true
  | .hl7Proxy => true
  | .hl7Message => true
  | .epicProxy => true
  | .auditProxy => true
  | _ => false

/-- The common protected-route middleware chain
`authenticateToken, auditLogger, <handler>`: a missing token short-circuits
with 401 before the audit middleware, a failed verification with 403 before
it; only a verified request emits the audit record and reaches its handler. -/
def withAuth (cfg : Config) (now : Nat) (req : Request)
    (k : JwtPayload → Outcome) : Outcome × Effects :=
  match authenticateToken req.authorization cfg.jwtSecret now with
  | .missing => (.respond 401 (.jsonError "Access token required"), noEffects)
  | .invalid => (.respond 403 (.jsonError "Invalid or expired token"), noEffects)
  | .ok p => (k p, ⟨[mkAudit now req (some p)], []⟩)

/-- Dispatch of a request that passed the global rate limiter, following the
registration order of server.js. -/
def route (cfg : Config) (now : Nat) (req : Request) : Outcome × Effects :=
  match matchRoute req.method req.path with
  | .health => (.respond 200 .health, noEffects)
  | .fhirProxy =>
    withAuth cfg now req
      (fun _ => .proxy .fhir cfg.fhirServerUrl (some fhirAuthCredential))
  | .hl7Proxy =>
    withAuth cfg now req (fun _ => .proxy .hl7 cfg.hl7ProcessorUrl none)
  | .hl7Message =>
    withAuth cfg now req (fun _ => hl7MessageHandler now req.body)
  | .epicProxy =>
    withAuth cfg now req (fun _ => .proxy .epic cfg.epicConnectorUrl none)
  | .auditProxy =>
    withAuth cfg now req (fun _ => .proxy .audit cfg.auditServiceUrl none)
  | .oauthTokenRoute => oauthToken cfg now req.body
  | .noMatch => (.respond 404 (.jsonError "Endpoint not found"), noEffects)

/-! ### Rate Limiter (server.js lines 57–65)

Modelled from the spec: the fixed-window algorithm of the `express-rate-limit`
middleware configured in server.js (`windowMs: 15 * 60 * 1000`, `max: 100`,
keyed by caller IP); the library's implementation is a dependency, not a file
of this repository, so its per-key `{count, window_start}` state machine is
taken from the specification's §4.3 description. -/

/-- The configured window: 15 minutes in milliseconds. -/
def rlWindowMs : Nat := 15 * 60 * 1000

/-- The configured limit per window. -/
def rlMax : Nat := 100

/-- Per-key limiter state. -/
structure RateState where
  count : Nat
  windowStart : Nat
deriving DecidableEq, Repr

/-- Modelled from the spec: one `Admit(key)` step of the fixed-window
algorithm. A fresh key opens a window at `now` with count 0; an elapsed
window (`now − window_start ≥ window_duration`) resets; then the count is
incremented and the request is allowed iff the new count is within the
limit. -/
def rlStep (st : Option RateState) (now : Nat) : Bool × RateState :=
  let base : RateState :=
    match st with
    | none => ⟨0, now⟩
    | some s => if rlWindowMs ≤ now - s.windowStart then ⟨0, now⟩ else s
  (decide (base.count + 1 ≤ rlMax), ⟨base.count + 1, base.windowStart⟩)

/-- Run the limiter for one key over a list of request times, collecting each
request's admission verdict. -/
def runReqs (st : Option RateState) : List Nat → List Bool × Option RateState
  | [] => ([], st)
  | t :: ts =>
    let r := rlStep st t
    let rest := runReqs (some r.2) ts
    (r.1 :: rest.1, rest.2)

/-- The limiter's per-key state table (keyed by caller IP). -/
def lookupState (tbl : List (String × RateState)) (k : String) :
    Option RateState :=
  match tbl.find? (fun e => e.1 == k) with
  | some e => some e.2
  | none => none

/-- Store a key's updated state. -/
def insertState (tbl : List (String × RateState)) (k : String) (s : RateState) :
    List (String × RateState) :=
  (k, s) :: tbl.filter (fun e => !(e.1 == k))

/-- The configured rejection message of the limiter. -/
def rateLimitMessage : String :=
  "Too many requests from this IP, please try again later."

/-- The request pipeline from the global limiter on: a throttled request is
answered 429 with the configured message and neither routes nor audits; an
admitted one is dispatched by `route`. -/
def gateway (cfg : Config) (now : Nat) (tbl : List (String × RateState))
    (req : Request) : Outcome × Effects × List (String × RateState) :=
  let r := rlStep (lookupState tbl req.ip) now
  let tbl' := insertState tbl req.ip r.2
  if r.1 then
    let oe := route cfg now req
    (oe.1, oe.2, tbl')
  else
    (.respond 429 (.text rateLimitMessage), noEffects, tbl')

/-! ### Proxy error handlers (`onError` callbacks of the four mounts) -/

/-- Structured 502 body `{error, message}` of an `onError` callback. -/
structure ErrBody where
  error : String
  message : String
deriving DecidableEq, Repr

/-- `onError` of the `/fhir` proxy (server.js lines 129–135): status 502,
`error` a fixed phrase, `message` the upstream error's `err.message`
verbatim. -/
def fhirOnError (errMessage : String) : Nat × ErrBody :=
  (502, ⟨"FHIR service temporarily unavailable", errMessage⟩)

/-- `onError` of the `/hl7` proxy (server.js lines 149–155). -/
def hl7OnError (errMessage : String) : Nat × ErrBody :=
  (502, ⟨"HL7 processor service temporarily unavailable", errMessage⟩)

/-- `onError` of the `/epic` proxy. -/
def epicOnError (errMessage : String) : Nat × ErrBody :=
  (502, ⟨"EPIC connector service temporarily unavailable", errMessage⟩)

/-- `onError` of the `/audit` proxy. -/
def auditOnError (errMessage : String) : Nat × ErrBody :=
  (502, ⟨"Audit service temporarily unavailable", errMessage⟩)

/-- Substring test over character lists (for stating what a client-visible
message contains). -/
def isInfixB (needle : List Char) : List Char → Bool
  | [] => needle.isEmpty
  | c :: rest => List.isPrefixOf needle (c :: rest) || isInfixB needle rest

/-- An `Authorization` header value carrying a token under the `Bearer`
scheme. -/
def bearerHeader (t : List Char) : List Char := "Bearer".toList ++ ' ' :: t

/-! ### Concrete fixtures for evaluating the model -/

/-- A concrete configuration: the compiled-in defaults of server.js with
`JWT_SECRET = "k"`. -/
def cfgEx : Config :=
  ⟨"k", "http://fhir-server:8084", "http://hl7-processor:8001",
   "http://epic-connector:8002", "http://audit-service:8003"⟩

/-- A second concrete configuration differing from `cfgEx` in every field. -/
def cfgEx2 : Config :=
  ⟨"j", "http://fhir-b:5", "http://hl7-b:6", "http://epic-b:7",
   "http://audit-b:8"⟩

/-- Claims of a token issued to client `c1` at time 0 under `cfgEx`. -/
def pEx : JwtPayload := ⟨"c1", defaultScope, "epic-ehr-gateway", 0, 3600⟩

/-- The token signed for `pEx` with `cfgEx`'s secret. -/
def tokEx : List Char := signToken pEx "k"

/-- A token signed with a different secret (`"j"`): its signature does not
verify under `cfgEx`. -/
def tokBadSig : List Char := signToken pEx "j"

/-- An authenticated `GET /fhir/Patient` request. -/
def reqFhirEx : Request :=
  ⟨"GET", "/fhir/Patient", some (bearerHeader tokEx), "1.2.3.4",
   some "curl/8", emptyBody⟩

/-- An authenticated legacy `POST /hl7/message` request with a valid body. -/
def reqHl7MsgEx : Request :=
  ⟨"POST", "/hl7/message", some (bearerHeader tokEx), "1.2.3.4",
   some "curl/8", ⟨some "ADT^A01", some "MSH|^~\\&|EPIC|", some "m-1",
   none, none, none⟩⟩

/-- A well-formed token request body for client `c1`. -/
def goodTokenBody : Body :=
  ⟨none, none, none, some "client_credentials", some "c1", some "s1"⟩

/-- A token request body with a non-`client_credentials` grant and a missing
secret. -/
def badTokenBody : Body :=
  ⟨none, none, none, some "password", some "c1", none⟩

/-- An upstream connection error message mentioning the internal host and
port, as `err.message` of a refused connection does. -/
def leakErrEx : String := "connect ECONNREFUSED fhir-server:8084"

/-- The admission verdicts of `n` consecutive in-window requests starting
from a window count of `c`. -/
def rlBools (c : Nat) : Nat → List Bool
  | 0 => []
  | n + 1 => decide (c + 1 ≤ rlMax) :: rlBools (c + 1) n

/-! ### Properties of the model -/

theorem splitOnChar_nil (sep : Char) : splitOnChar sep [] = [[]] := rfl

theorem splitOnChar_cons (sep c : Char) (rest : List Char) :
    splitOnChar sep (c :: rest) =
      if c = sep then [] :: splitOnChar sep rest
      else (c :: (splitOnChar sep rest).headI) :: (splitOnChar sep rest).tail := rfl

theorem splitOnChar_ne_nil (sep : Char) (l : List Char) : splitOnChar sep l ≠ [] := by
  induction l with
  | nil => simp [splitOnChar]
  | cons c rest ih =>
    rw [splitOnChar_cons]
    split <;> simp

theorem splitOnChar_not_mem {sep : Char} {l : List Char} (h : sep ∉ l) :
    splitOnChar sep l = [l] := by
  induction l with
  | nil => rfl
  | cons c rest ih =>
    have hcs : c ≠ sep := fun hc => h (hc ▸ List.mem_cons_self c rest)
    have hrest : sep ∉ rest := fun hr => h (List.mem_cons_of_mem c hr)
    rw [splitOnChar_cons, if_neg hcs, ih hrest]
    simp

theorem splitOnChar_append_no_sep {sep : Char} {a : List Char} (l : List Char)
    (h : sep ∉ a) :
    splitOnChar sep (a ++ l) =
      (a ++ (splitOnChar sep l).headI) :: (splitOnChar sep l).tail := by
  induction a with
  | nil =>
    obtain ⟨g, gs, hg⟩ := List.exists_cons_of_ne_nil (splitOnChar_ne_nil sep l)
    simp [hg]
  | cons c a' ih =>
    have hcs : c ≠ sep := fun hc => h (hc ▸ List.mem_cons_self c a')
    have ha' : sep ∉ a' := fun hr => h (List.mem_cons_of_mem c hr)
    rw [List.cons_append, splitOnChar_cons, if_neg hcs, ih ha']
    simp

theorem splitOnChar_append_sep {sep : Char} {a : List Char} (l : List Char)
    (h : sep ∉ a) :
    splitOnChar sep (a ++ sep :: l) = a :: splitOnChar sep l := by
  rw [splitOnChar_append_no_sep (sep :: l) h, splitOnChar_cons, if_pos rfl]
  obtain ⟨g, gs, hg⟩ := List.exists_cons_of_ne_nil (splitOnChar_ne_nil sep l)
  simp [hg]

theorem mem_toBitsF {c : Char} :
    ∀ {fuel n : Nat}, c ∈ toBitsF fuel n → c = '0' ∨ c = '1' := by
  intro fuel
  induction fuel with
  | zero => intro n h; simp [toBitsF] at h
  | succ f ih =>
    intro n h
    rw [toBitsF] at h
    by_cases hn : n = 0
    · simp [hn] at h
    · rw [if_neg hn] at h
      rcases List.mem_cons.mp h with h | h
      · split at h <;> simp [h]
      · exact ih h

theorem mem_natBits {c : Char} {n : Nat} (h : c ∈ natBits n) :
    c = '0' ∨ c = '1' := mem_toBitsF h

theorem ofBits_toBitsF : ∀ fuel n, n ≤ fuel → ofBits (toBitsF fuel n) = n := by
  intro fuel
  induction fuel with
  | zero => intro n hn; interval_cases n; rfl
  | succ f ih =>
    intro n hn
    rw [toBitsF]
    by_cases h0 : n = 0
    · simp [h0, ofBits]
    · rw [if_neg h0, ofBits]
      have hdiv : n / 2 ≤ f := by omega
      rw [ih (n / 2) hdiv]
      have hm : n % 2 = 1 ∨ n % 2 = 0 := by omega
      rcases hm with hm | hm <;> simp [hm] <;> omega

theorem ofBits_natBits (n : Nat) : ofBits (natBits n) = n :=
  ofBits_toBitsF n n (Nat.le_refl n)

theorem mem_encFieldL {c : Char} {cs : List Char} (h : c ∈ encFieldL cs) :
    c = '_' ∨ c = '0' ∨ c = '1' := by
  induction cs with
  | nil => simp [encFieldL] at h
  | cons d ds ih =>
    simp only [encFieldL, encChar, List.cons_append, List.mem_cons,
      List.mem_append] at h
    rcases h with h | h | h
    · exact Or.inl h
    · exact Or.inr (mem_natBits h)
    · exact ih h

theorem mem_encField {c : Char} {s : String} (h : c ∈ encField s) :
    c = '_' ∨ c = '0' ∨ c = '1' := mem_encFieldL h

theorem splitOnChar_underscore_encFieldL (cs : List Char) :
    splitOnChar '_' (encFieldL cs) = [] :: cs.map (fun c => natBits c.toNat) := by
  induction cs with
  | nil => rfl
  | cons c cs' ih =>
    have hx : '_' ∉ natBits c.toNat := by
      intro hmem
      rcases mem_natBits hmem with h | h <;> simp at h
    rw [show encFieldL (c :: cs') = '_' :: (natBits c.toNat ++ encFieldL cs') by
          simp [encFieldL, encChar],
        splitOnChar_cons, if_pos rfl, splitOnChar_append_no_sep _ hx, ih]
    simp

theorem decodeGroup_natBits (c : Char) : decodeGroup (natBits c.toNat) = c := by
  rw [decodeGroup, ofBits_natBits, Char.ofNat_toNat]

theorem decodeField_encField (s : String) : decodeField (encField s) = some s := by
  rw [decodeField, encField, splitOnChar_underscore_encFieldL]
  simp only [reduceIte, List.map_map, Option.some.injEq]
  have : (fun c => decodeGroup (natBits c.toNat)) = (id : Char → Char) := by
    funext c
    simp [decodeGroup_natBits]
  rw [show ((decodeGroup ∘ fun c => natBits c.toNat) : Char → Char) =
        (fun c => decodeGroup (natBits c.toNat)) from rfl, this, List.map_id]
  cases s
  rfl

theorem mem_payloadEnc {c : Char} {p : JwtPayload} (h : c ∈ payloadEnc p) :
    c = '_' ∨ c = '0' ∨ c = '1' ∨ c = ',' := by
  rw [payloadEnc] at h
  rcases List.mem_append.mp h with h | h
  · rcases mem_encField h with h | h | h <;> simp [h]
  rcases List.mem_cons.mp h with h | h
  · simp [h]
  rcases List.mem_append.mp h with h | h
  · rcases mem_encField h with h | h | h <;> simp [h]
  rcases List.mem_cons.mp h with h | h
  · simp [h]
  rcases List.mem_append.mp h with h | h
  · rcases mem_encField h with h | h | h <;> simp [h]
  rcases List.mem_cons.mp h with h | h
  · simp [h]
  rcases List.mem_append.mp h with h | h
  · rcases mem_natBits h with h | h <;> simp [h]
  rcases List.mem_cons.mp h with h | h
  · simp [h]
  rcases mem_natBits h with h | h <;> simp [h]

theorem comma_not_mem_encField (s : String) : ',' ∉ encField s := by
  intro h
  rcases mem_encField h with h' | h' | h' <;> simp at h'

theorem comma_not_mem_natBits (n : Nat) : ',' ∉ natBits n := by
  intro h
  rcases mem_natBits h with h' | h' <;> simp at h'

theorem splitOnChar_comma_payloadEnc (p : JwtPayload) :
    splitOnChar ',' (payloadEnc p) =
      [encField p.client_id, encField p.scope, encField p.iss,
       natBits p.iat, natBits p.exp] := by
  rw [payloadEnc,
    splitOnChar_append_sep _ (comma_not_mem_encField p.client_id),
    splitOnChar_append_sep _ (comma_not_mem_encField p.scope),
    splitOnChar_append_sep _ (comma_not_mem_encField p.iss),
    splitOnChar_append_sep _ (comma_not_mem_natBits p.iat),
    splitOnChar_not_mem (comma_not_mem_natBits p.exp)]

theorem decodePayload_payloadEnc (p : JwtPayload) :
    decodePayload (payloadEnc p) = some p := by
  rw [decodePayload, splitOnChar_comma_payloadEnc]
  simp [decodeField_encField, ofBits_natBits]

theorem dot_not_mem_payloadEnc (p : JwtPayload) : '.' ∉ payloadEnc p := by
  intro h
  rcases mem_payloadEnc h with h' | h' | h' | h' <;> simp at h'

theorem dot_not_mem_macSig (secret : String) (p : JwtPayload) :
    '.' ∉ macSig secret (payloadEnc p) := by
  intro h
  simp only [macSig, List.mem_append, List.mem_cons] at h
  rcases h with h | h | h
  · rcases mem_encField h with h' | h' | h' <;> simp at h'
  · simp at h
  · exact dot_not_mem_payloadEnc p h

/-- Sign/verify round trip: a token signed with a secret verifies under the
same secret exactly while the expiry claim is in the future. -/
theorem verifyToken_signToken (p : JwtPayload) (secret : String) (now : Nat) :
    verifyToken (signToken p secret) secret now =
      if now < p.exp then some p else none := by
  rw [verifyToken, signToken,
    splitOnChar_append_sep _ (dot_not_mem_payloadEnc p),
    splitOnChar_not_mem (dot_not_mem_macSig secret p)]
  simp [decodePayload_payloadEnc]

theorem mem_signToken {c : Char} {p : JwtPayload} {secret : String}
    (h : c ∈ signToken p secret) :
    c = '_' ∨ c = '0' ∨ c = '1' ∨ c = ',' ∨ c = '.' ∨ c = '|' := by
  rw [signToken] at h
  rcases List.mem_append.mp h with h | h
  · rcases mem_payloadEnc h with h' | h' | h' | h' <;> simp [h']
  rcases List.mem_cons.mp h with h | h
  · simp [h]
  rw [macSig] at h
  rcases List.mem_append.mp h with h | h
  · rcases mem_encField h with h' | h' | h' <;> simp [h']
  rcases List.mem_cons.mp h with h | h
  · simp [h]
  rcases mem_payloadEnc h with h' | h' | h' | h' <;> simp [h']

theorem space_not_mem_signToken (p : JwtPayload) (secret : String) :
    ' ' ∉ signToken p secret := by
  intro h
  rcases mem_signToken h with h' | h' | h' | h' | h' | h' <;> simp at h'

theorem signToken_ne_nil (p : JwtPayload) (secret : String) :
    signToken p secret ≠ [] := by
  simp [signToken]

/-! ### Helper lemmas about the Auth Gate -/

theorem extractToken_scheme_token {s t : List Char} (hsp : ' ' ∉ s)
    (ht : t ≠ []) (htp : ' ' ∉ t) :
    extractToken (some (s ++ ' ' :: t)) = some t := by
  rw [extractToken, splitOnChar_append_sep _ hsp, splitOnChar_not_mem htp]
  simp [ht]

theorem extractToken_no_space {h : List Char} (hn : ' ' ∉ h) :
    extractToken (some h) = none := by
  rw [extractToken, splitOnChar_not_mem hn]
  rfl

theorem withAuth_of_extract_none {cfg : Config} {now : Nat} {req : Request}
    (k : JwtPayload → Outcome) (h : extractToken req.authorization = none) :
    withAuth cfg now req k =
      (.respond 401 (.jsonError "Access token required"), noEffects) := by
  rw [withAuth, authenticateToken, h]

theorem withAuth_of_verify_none {cfg : Config} {now : Nat} {req : Request}
    {t : List Char} (k : JwtPayload → Outcome)
    (ht : extractToken req.authorization = some t)
    (hv : verifyToken t cfg.jwtSecret now = none) :
    withAuth cfg now req k =
      (.respond 403 (.jsonError "Invalid or expired token"), noEffects) := by
  rw [withAuth, authenticateToken, ht]
  simp [hv]

theorem withAuth_of_verify_some {cfg : Config} {now : Nat} {req : Request}
    {t : List Char} {p : JwtPayload} (k : JwtPayload → Outcome)
    (ht : extractToken req.authorization = some t)
    (hv : verifyToken t cfg.jwtSecret now = some p) :
    withAuth cfg now req k = (k p, ⟨[mkAudit now req (some p)], []⟩) := by
  rw [withAuth, authenticateToken, ht]
  simp [hv]

theorem authenticateToken_bearer (t : List Char) (secret : String) (now : Nat)
    (ht : t ≠ []) (htp : ' ' ∉ t) :
    authenticateToken (some (bearerHeader t)) secret now =
      match verifyToken t secret now with
      | none => .invalid
      | some p => .ok p := by
  rw [authenticateToken, bearerHeader,
    extractToken_scheme_token (by decide) ht htp]

/-! ### Helper lemmas about the rate limiter -/

theorem rlStep_in_window (st : RateState) (now : Nat)
    (h : now - st.windowStart < rlWindowMs) :
    rlStep (some st) now =
      (decide (st.count + 1 ≤ rlMax), ⟨st.count + 1, st.windowStart⟩) := by
  rw [rlStep]
  simp only [if_neg (by omega : ¬ rlWindowMs ≤ now - st.windowStart)]

theorem rlStep_elapsed (st : RateState) (now : Nat)
    (h : rlWindowMs ≤ now - st.windowStart) :
    rlStep (some st) now = (true, ⟨1, now⟩) := by
  rw [rlStep]
  simp only [if_pos h]
  rfl

theorem runReqs_in_window :
    ∀ (ts : List Nat) (c t0 : Nat),
      (∀ t ∈ ts, t0 ≤ t ∧ t - t0 < rlWindowMs) →
      runReqs (some ⟨c, t0⟩) ts =
        (rlBools c ts.length, some ⟨c + ts.length, t0⟩) := by
  intro ts
  induction ts with
  | nil => intro c t0 _; rfl
  | cons t ts' ih =>
    intro c t0 hin
    have hfst := hin t (List.mem_cons_self t ts')
    have hrest : ∀ u ∈ ts', t0 ≤ u ∧ u - t0 < rlWindowMs :=
      fun u hu => hin u (List.mem_cons_of_mem t hu)
    rw [runReqs, rlStep_in_window ⟨c, t0⟩ t hfst.2, ih (c + 1) t0 hrest,
      show c + 1 + ts'.length = c + (ts'.length + 1) from by omega]
    rfl

/-! ### The claims -/

/-- C2: a token issued by the token endpoint for client id `c` decodes under
the Auth Gate to a principal whose `client_id` equals `c`; with
`expires_in = 3600` the Auth Gate accepts the token at
`now = issue_time + 3599` and rejects it at `now = issue_time + 3601`. -/
theorem c2_issue_then_authenticate (cfg : Config) (now : Nat) (c s : String)
    (hc : c ≠ "") (hs : s ≠ "") :
    (oauthToken cfg now
        ⟨none, none, none, some "client_credentials", some c, some s⟩).1 =
      .respond 200 (.tokenSuccess
        (signToken ⟨c, defaultScope, "epic-ehr-gateway", now, now + 3600⟩
          cfg.jwtSecret) "Bearer" 3600 defaultScope) ∧
    authenticateToken
        (some (bearerHeader
          (signToken ⟨c, defaultScope, "epic-ehr-gateway", now, now + 3600⟩
            cfg.jwtSecret)))
        cfg.jwtSecret (now + 3599) =
      .ok ⟨c, defaultScope, "epic-ehr-gateway", now, now + 3600⟩ ∧
    (⟨c, defaultScope, "epic-ehr-gateway", now, now + 3600⟩ :
        JwtPayload).client_id = c ∧
    authenticateToken
        (some (bearerHeader
          (signToken ⟨c, defaultScope, "epic-ehr-gateway", now, now + 3600⟩
            cfg.jwtSecret)))
        cfg.jwtSecret (now + 3601) =
      .invalid := by
  refine ⟨?_, ?_, rfl, ?_⟩
  · simp [oauthToken, validateTokenReq, hc, hs]
  · rw [authenticateToken_bearer _ _ _ (signToken_ne_nil _ _)
      (space_not_mem_signToken _ _), verifyToken_signToken]
    simp [show now + 3599 < now + 3600 from by omega]
  · rw [authenticateToken_bearer _ _ _ (signToken_ne_nil _ _)
      (space_not_mem_signToken _ _), verifyToken_signToken]
    simp [show ¬ (now + 3601 < now + 3600) from by omega]

/-- C2 witness: the round trip at `cfg = cfgEx`, issue time 0, client `c1`,
secret `s1`. -/
theorem c2_issue_then_authenticate_witness :
    (oauthToken cfgEx 0
        ⟨none, none, none, some "client_credentials", some "c1", some "s1"⟩).1 =
      .respond 200 (.tokenSuccess
        (signToken ⟨"c1", defaultScope, "epic-ehr-gateway", 0, 0 + 3600⟩
          cfgEx.jwtSecret) "Bearer" 3600 defaultScope) ∧
    authenticateToken
        (some (bearerHeader
          (signToken ⟨"c1", defaultScope, "epic-ehr-gateway", 0, 0 + 3600⟩
            cfgEx.jwtSecret)))
        cfgEx.jwtSecret (0 + 3599) =
      .ok ⟨"c1", defaultScope, "epic-ehr-gateway", 0, 0 + 3600⟩ ∧
    (⟨"c1", defaultScope, "epic-ehr-gateway", 0, 0 + 3600⟩ :
        JwtPayload).client_id = "c1" ∧
    authenticateToken
        (some (bearerHeader
          (signToken ⟨"c1", defaultScope, "epic-ehr-gateway", 0, 0 + 3600⟩
            cfgEx.jwtSecret)))
        cfgEx.jwtSecret (0 + 3601) =
      .invalid :=
  c2_issue_then_authenticate cfgEx 0 "c1" "s1" (by decide) (by decide)

/-- C3: a token request with a non-`client_credentials` grant type or an
empty or missing `client_id` or `client_secret` is answered 400 with
field-level validation errors and no token; a request with grant type
`client_credentials` and non-empty `client_id` and `client_secret` is
answered 200 with `{access_token, token_type: Bearer, expires_in: 3600,
scope}`, and the outcome never depends on the secret's value. -/
theorem c3_issue_token_validation (cfg : Config) (now : Nat) (b : Body) :
    (validateTokenReq b ≠ [] →
      (oauthToken cfg now b).1 =
        .respond 400 (.validationErrors (validateTokenReq b))) ∧
    (b.grant_type ≠ some "client_credentials" →
      validateTokenReq b ≠ [] ∧
      (⟨"grant_type", "Invalid value"⟩ : FieldError) ∈ validateTokenReq b) ∧
    (b.client_id.getD "" = "" →
      validateTokenReq b ≠ [] ∧
      (⟨"client_id", "Invalid value"⟩ : FieldError) ∈ validateTokenReq b) ∧
    (b.client_secret.getD "" = "" →
      validateTokenReq b ≠ [] ∧
      (⟨"client_secret", "Invalid value"⟩ : FieldError) ∈ validateTokenReq b) ∧
    (b.grant_type = some "client_credentials" →
      b.client_id.getD "" ≠ "" → b.client_secret.getD "" ≠ "" →
      (oauthToken cfg now b).1 =
        .respond 200 (.tokenSuccess
          (signToken
            ⟨b.client_id.getD "", defaultScope, "epic-ehr-gateway", now,
             now + 3600⟩ cfg.jwtSecret) "Bearer" 3600 defaultScope)) ∧
    (∀ s1 s2 : String, s1 ≠ "" → s2 ≠ "" →
      oauthToken cfg now { b with client_secret := some s1 } =
      oauthToken cfg now { b with client_secret := some s2 }) := by
  refine ⟨?_, ?_, ?_, ?_, ?_, ?_⟩
  · intro h
    rw [oauthToken]
    simp only [List.isEmpty_iff, h, if_false]
  · intro h
    rw [validateTokenReq, if_neg h]
    refine ⟨fun hx => ?_, ?_⟩
    · simp [List.append_eq_nil] at hx
    · simp
  · intro h
    rw [validateTokenReq, if_pos h]
    refine ⟨fun hx => ?_, ?_⟩
    · simp [List.append_eq_nil] at hx
    · simp
  · intro h
    rw [validateTokenReq]
    rw [show (if b.client_secret.getD "" = ""
          then [(⟨"client_secret", "Invalid value"⟩ : FieldError)] else []) =
        [(⟨"client_secret", "Invalid value"⟩ : FieldError)] from if_pos h]
    refine ⟨fun hx => ?_, ?_⟩
    · simp [List.append_eq_nil] at hx
    · simp
  · intro h1 h2 h3
    rw [oauthToken]
    simp only [validateTokenReq, h1, if_pos rfl, if_neg h2, if_neg h3]
    rfl
  · intro s1 s2 h1 h2
    rw [oauthToken, oauthToken]
    simp [validateTokenReq, h1, h2]

/-- C3 witness: a malformed request (wrong grant type, missing secret) is
rejected with both field errors, and a well-formed request for `c1` gets a
token; replacing the secret `s1` by `s2` changes nothing. -/
theorem c3_issue_token_validation_witness :
    (oauthToken cfgEx 0 badTokenBody).1 =
      .respond 400 (.validationErrors (validateTokenReq badTokenBody)) ∧
    (⟨"grant_type", "Invalid value"⟩ : FieldError) ∈
      validateTokenReq badTokenBody ∧
    (⟨"client_secret", "Invalid value"⟩ : FieldError) ∈
      validateTokenReq badTokenBody ∧
    (oauthToken cfgEx 0 goodTokenBody).1 =
      .respond 200 (.tokenSuccess
        (signToken ⟨"c1", defaultScope, "epic-ehr-gateway", 0, 0 + 3600⟩
          cfgEx.jwtSecret) "Bearer" 3600 defaultScope) ∧
    oauthToken cfgEx 0 { goodTokenBody with client_secret := some "s1" } =
      oauthToken cfgEx 0 { goodTokenBody with client_secret := some "s2" } :=
  ⟨(c3_issue_token_validation cfgEx 0 badTokenBody).1 (by decide),
   ((c3_issue_token_validation cfgEx 0 badTokenBody).2.1 (by decide)).2,
   ((c3_issue_token_validation cfgEx 0 badTokenBody).2.2.2.1 (by decide)).2,
   (c3_issue_token_validation cfgEx 0 goodTokenBody).2.2.2.2.1 (by decide)
     (by decide) (by decide),
   (c3_issue_token_validation cfgEx 0 goodTokenBody).2.2.2.2.2 "s1" "s2"
     (by decide) (by decide)⟩

/-- C10: the Auth Gate splits the `Authorization` header on spaces and takes
the second word as the token without checking the scheme: for a space-free
token `t` and any non-empty space-free scheme word `s`, the header `s ⬝ ' ' ⬝ t`
authenticates exactly as `Bearer ⬝ ' ' ⬝ t` does (in particular it is accepted
when `t` verifies), while a header containing no space at all — a bare token,
or the word `Bearer` alone — yields 401 (missing token), not 403. -/
theorem c10_scheme_word_ignored (s t : List Char) (secret : String) (now : Nat)
    (hs : s ≠ []) (hsp : ' ' ∉ s) (ht : t ≠ []) (htp : ' ' ∉ t) :
    extractToken (some (s ++ ' ' :: t)) = some t ∧
    authenticateToken (some (s ++ ' ' :: t)) secret now =
      authenticateToken (some (bearerHeader t)) secret now ∧
    (∀ p, verifyToken t secret now = some p →
      authenticateToken (some (s ++ ' ' :: t)) secret now = .ok p) ∧
    (∀ h : List Char, ' ' ∉ h →
      authenticateToken (some h) secret now = .missing) := by
  have hex : extractToken (some (s ++ ' ' :: t)) = some t :=
    extractToken_scheme_token hsp ht htp
  refine ⟨hex, ?_, ?_, ?_⟩
  · rw [authenticateToken, hex, bearerHeader, authenticateToken,
      extractToken_scheme_token (by decide) ht htp]
  · intro p hp
    rw [authenticateToken, hex]
    simp [hp]
  · intro h hn
    rw [authenticateToken, extractToken_no_space hn]

/-- C10 witness: the header `Basic <token>` with a valid token is accepted
exactly like `Bearer <token>` (as `.ok pEx`), and the space-free headers
given by the bare token and by the word `Bearer` alone both yield the
missing-token outcome. -/
theorem c10_scheme_word_ignored_witness :
    extractToken (some ("Basic".toList ++ ' ' :: tokEx)) = some tokEx ∧
    authenticateToken (some ("Basic".toList ++ ' ' :: tokEx)) "k" 10 =
      authenticateToken (some (bearerHeader tokEx)) "k" 10 ∧
    authenticateToken (some ("Basic".toList ++ ' ' :: tokEx)) "k" 10 =
      .ok pEx ∧
    authenticateToken (some tokEx) "k" 10 = .missing ∧
    authenticateToken (some "Bearer".toList) "k" 10 = .missing := by
  have h := c10_scheme_word_ignored "Basic".toList tokEx "k" 10
    (by decide) (by decide) (by decide) (by decide)
  exact ⟨h.1, h.2.1, h.2.2.1 pEx (by decide), h.2.2.2 tokEx (by decide),
    h.2.2.2 "Bearer".toList (by decide)⟩

theorem runReqs_cons (st : Option RateState) (t : Nat) (ts : List Nat) :
    runReqs st (t :: ts) =
      ((rlStep st t).1 :: (runReqs (some (rlStep st t).2) ts).1,
       (runReqs (some (rlStep st t).2) ts).2) := rfl

theorem withAuth_gate (cfg : Config) (now : Nat) (req : Request)
    (k : JwtPayload → Outcome) :
    (extractToken req.authorization = none →
      withAuth cfg now req k =
        (.respond 401 (.jsonError "Access token required"), noEffects)) ∧
    (∀ t, extractToken req.authorization = some t →
      verifyToken t cfg.jwtSecret now = none →
      withAuth cfg now req k =
        (.respond 403 (.jsonError "Invalid or expired token"), noEffects)) ∧
    ((withAuth cfg now req k).1.isProxy = true →
      ∃ t p, extractToken req.authorization = some t ∧
        verifyToken t cfg.jwtSecret now = some p) := by
  refine ⟨fun hx => withAuth_of_extract_none k hx,
    fun t ht hv => withAuth_of_verify_none k ht hv, fun hpx => ?_⟩
  cases hx : extractToken req.authorization with
  | none =>
    rw [withAuth_of_extract_none k hx] at hpx
    simp [Outcome.isProxy] at hpx
  | some t =>
    cases hv : verifyToken t cfg.jwtSecret now with
    | none =>
      rw [withAuth_of_verify_none k hx hv] at hpx
      simp [Outcome.isProxy] at hpx
    | some p => exact ⟨t, p, rfl, hv⟩

/-- C4: on every protected route (`/fhir`, `/hl7`, `/epic`, `/audit` mounts
and the legacy HL7 route, all guarded by `authenticateToken`), a request
without an extractable token is answered 401 `Access token required` without
reaching the proxy, a request whose token fails verification (bad signature,
expired, malformed) is answered 403 without reaching the proxy, and any
dispatch to an upstream proxy implies the request carried a token that
verified. -/
theorem c4_auth_gate_protects_routes (cfg : Config) (now : Nat) (req : Request)
    (h : isProtectedRoute (matchRoute req.method req.path) = true) :
    (extractToken req.authorization = none →
      route cfg now req =
        (.respond 401 (.jsonError "Access token required"), noEffects)) ∧
    (∀ t, extractToken req.authorization = some t →
      verifyToken t cfg.jwtSecret now = none →
      route cfg now req =
        (.respond 403 (.jsonError "Invalid or expired token"), noEffects)) ∧
    ((route cfg now req).1.isProxy = true →
      ∃ t p, extractToken req.authorization = some t ∧
        verifyToken t cfg.jwtSecret now = some p) := by
  cases hm : matchRoute req.method req.path with
  | health => rw [hm] at h; simp [isProtectedRoute] at h
  | oauthTokenRoute => rw [hm] at h; simp [isProtectedRoute] at h
  | noMatch => rw [hm] at h; simp [isProtectedRoute] at h
  | fhirProxy =>
    simp only [route, hm]
    exact withAuth_gate cfg now req _
  | hl7Proxy =>
    simp only [route, hm]
    exact withAuth_gate cfg now req _
  | hl7Message =>
    simp only [route, hm]
    exact withAuth_gate cfg now req _
  | epicProxy =>
    simp only [route, hm]
    exact withAuth_gate cfg now req _
  | auditProxy =>
    simp only [route, hm]
    exact withAuth_gate cfg now req _

/-- C4 witness: at `cfgEx`, `GET /fhir/Patient` with no header gets 401; with
a token signed under the wrong secret gets 403; and the authenticated
`reqFhirEx` dispatch to the proxy exhibits its verified token. -/
theorem c4_auth_gate_protects_routes_witness :
    route cfgEx 10 { reqFhirEx with authorization := none } =
      (.respond 401 (.jsonError "Access token required"), noEffects) ∧
    route cfgEx 10 { reqFhirEx with authorization := some (bearerHeader tokBadSig) } =
      (.respond 403 (.jsonError "Invalid or expired token"), noEffects) ∧
    (∃ t p, extractToken reqFhirEx.authorization = some t ∧
      verifyToken t cfgEx.jwtSecret 10 = some p) :=
  ⟨(c4_auth_gate_protects_routes cfgEx 10
      { reqFhirEx with authorization := none } (by decide)).1 (by decide),
   (c4_auth_gate_protects_routes cfgEx 10
      { reqFhirEx with authorization := some (bearerHeader tokBadSig) }
      (by decide)).2.1 tokBadSig (by decide) (by decide),
   (c4_auth_gate_protects_routes cfgEx 10 reqFhirEx (by decide)).2.2
     (by decide)⟩

/-- C1: contrary to the claim, the gateway never serves `POST /hl7/message`
itself: the `app.use('/hl7', ...)` proxy mount is registered first and
matches the path, so the request is forwarded to the HL7 upstream; the
registered legacy handler — which would have answered 202 with the body's
`messageId` (or a generated one) and 400 on empty or missing `messageType`
or `content` — is unreachable for every method and path. -/
theorem c1_legacy_hl7_route_shadowed :
    (∀ m p, matchRoute m p ≠ .hl7Message) ∧
    matchRoute "POST" "/hl7/message" = .hl7Proxy ∧
    (route cfgEx 10 reqHl7MsgEx).1 =
      .proxy .hl7 "http://hl7-processor:8001" none ∧
    hl7MessageHandler 10 reqHl7MsgEx.body =
      .respond 202 (.hl7Accepted "HL7 message queued for processing" "m-1") ∧
    hl7MessageHandler 10 emptyBody =
      .respond 400 (.validationErrors
        [⟨"messageType", "Message type is required"⟩,
         ⟨"content", "HL7 content is required"⟩]) := by
  refine ⟨?_, by decide, by decide, by decide, by decide⟩
  intro m p h
  rw [matchRoute] at h
  by_cases h1 : (m == "GET" && p == "/health") = true
  · rw [if_pos h1] at h
    exact RouteChoice.noConfusion h
  rw [if_neg h1] at h
  by_cases h2 : mountMatch "/fhir" p = true
  · rw [if_pos h2] at h
    exact RouteChoice.noConfusion h
  rw [if_neg h2] at h
  by_cases h3 : mountMatch "/hl7" p = true
  · rw [if_pos h3] at h
    exact RouteChoice.noConfusion h
  rw [if_neg h3] at h
  by_cases h4 : (m == "POST" && p == "/hl7/message") = true
  · have hp : p = "/hl7/message" := eq_of_beq ((Bool.and_eq_true _ _).mp h4).2
    rw [hp] at h3
    exact h3 (by decide)
  rw [if_neg h4] at h
  by_cases h5 : mountMatch "/epic" p = true
  · rw [if_pos h5] at h
    exact RouteChoice.noConfusion h
  rw [if_neg h5] at h
  by_cases h6 : mountMatch "/audit" p = true
  · rw [if_pos h6] at h
    exact RouteChoice.noConfusion h
  rw [if_neg h6] at h
  by_cases h7 : (m == "POST" && p == "/oauth/token") = true
  · rw [if_pos h7] at h
    exact RouteChoice.noConfusion h
  · rw [if_neg h7] at h
    exact RouteChoice.noConfusion h

/-- C5: the fixed-window limiter (limit 100, window 15 minutes) keeps per-key
`{count, window_start}` state: from a fresh key, the first 100 requests
inside one window are admitted and the 101st is rejected; the gateway
answers a rejected request 429 with the configured message and performs no
routing or auditing; once the window has elapsed the count is fully reset
and the next request is admitted; and within a window the count only ever
increments. -/
theorem c5_fixed_window_rate_limiter (t0 : Nat) (ts : List Nat)
    (hlen : ts.length = 100)
    (hin : ∀ t ∈ ts, t0 ≤ t ∧ t - t0 < rlWindowMs) :
    runReqs none (t0 :: ts) =
      (List.replicate 100 true ++ [false], some ⟨101, t0⟩) ∧
    (∀ tnext, t0 + rlWindowMs ≤ tnext →
      rlStep (some ⟨101, t0⟩) tnext = (true, ⟨1, tnext⟩)) ∧
    (∀ (st : RateState) (now : Nat), now - st.windowStart < rlWindowMs →
      rlStep (some st) now =
        (decide (st.count + 1 ≤ rlMax), ⟨st.count + 1, st.windowStart⟩) ∧
      st.count ≤ (rlStep (some st) now).2.count) ∧
    (∀ (cfg : Config) (now : Nat) (tbl : List (String × RateState))
        (req : Request),
      (rlStep (lookupState tbl req.ip) now).1 = false →
      gateway cfg now tbl req =
        (.respond 429 (.text rateLimitMessage), noEffects,
         insertState tbl req.ip (rlStep (lookupState tbl req.ip) now).2)) := by
  refine ⟨?_, ?_, ?_, ?_⟩
  · have hstep0 : rlStep none t0 = (true, ⟨1, t0⟩) := by
      simp [rlStep, rlMax]
    have hrun := runReqs_in_window ts 1 t0 hin
    have hb : (true :: rlBools 1 100 : List Bool) =
        List.replicate 100 true ++ [false] := by decide
    rw [runReqs_cons, hstep0]
    show (true :: (runReqs (some (⟨1, t0⟩ : RateState)) ts).1,
          (runReqs (some (⟨1, t0⟩ : RateState)) ts).2) =
      (List.replicate 100 true ++ [false], some (⟨101, t0⟩ : RateState))
    rw [hrun, hlen]
    show (true :: rlBools 1 100, some (⟨101, t0⟩ : RateState)) =
      (List.replicate 100 true ++ [false], some (⟨101, t0⟩ : RateState))
    rw [hb]
  · intro tnext htn
    exact rlStep_elapsed ⟨101, t0⟩ tnext (by simp; omega)
  · intro st now h
    refine ⟨rlStep_in_window st now h, ?_⟩
    rw [rlStep_in_window st now h]
    simp
  · intro cfg now tbl req h
    simp [gateway, h]

/-- C5 witness: 101 requests from a fresh key at times 0, 1, 1, …, 1 — the
first 100 admitted, the 101st rejected with final state count 101 — plus the
reset, monotonicity and 429 facts at concrete inputs. -/
theorem c5_fixed_window_rate_limiter_witness :
    runReqs none (0 :: List.replicate 100 1) =
      (List.replicate 100 true ++ [false], some ⟨101, 0⟩) ∧
    (∀ tnext, 0 + rlWindowMs ≤ tnext →
      rlStep (some ⟨101, 0⟩) tnext = (true, ⟨1, tnext⟩)) ∧
    (∀ (st : RateState) (now : Nat), now - st.windowStart < rlWindowMs →
      rlStep (some st) now =
        (decide (st.count + 1 ≤ rlMax), ⟨st.count + 1, st.windowStart⟩) ∧
      st.count ≤ (rlStep (some st) now).2.count) ∧
    (∀ (cfg : Config) (now : Nat) (tbl : List (String × RateState))
        (req : Request),
      (rlStep (lookupState tbl req.ip) now).1 = false →
      gateway cfg now tbl req =
        (.respond 429 (.text rateLimitMessage), noEffects,
         insertState tbl req.ip (rlStep (lookupState tbl req.ip) now).2)) :=
  c5_fixed_window_rate_limiter 0 (List.replicate 100 1) (by decide) (by decide)

/-- C6 counterexample: the basic-auth credential injected into outbound FHIR
requests is not taken from startup configuration — two configurations
differing in every field (including the FHIR upstream URL and the JWT
secret) both produce the fixed compiled-in pair `admin:admin123`, and an
authenticated `/fhir` dispatch under either carries exactly that pair. -/
theorem c6_counterexample_fixed_credential :
    cfgEx ≠ cfgEx2 ∧
    (fhirProxyOptions cfgEx).auth = some "admin:admin123" ∧
    (fhirProxyOptions cfgEx2).auth = some "admin:admin123" ∧
    (route cfgEx 10 reqFhirEx).1 =
      .proxy .fhir cfgEx.fhirServerUrl (some "admin:admin123") := by
  refine ⟨by decide, rfl, rfl, by decide⟩

/-- C6 amended: the injected upstream basic-auth credential on the outbound
FHIR `Authorization` header is the string literal `admin:admin123` compiled
into server.js; it is identical for every configuration, and every `/fhir`
dispatch carries it. -/
theorem c6_credential_always_admin (cfg : Config) :
    (fhirProxyOptions cfg).auth = some fhirAuthCredential ∧
    fhirAuthCredential = "admin:admin123" ∧
    (∀ (now : Nat) (req : Request) (url : String) (a : Option String),
      (route cfg now req).1 = .proxy .fhir url a →
      a = some "admin:admin123") := by
  refine ⟨rfl, rfl, ?_⟩
  intro now req url a h
  cases hm : matchRoute req.method req.path with
  | health =>
    simp only [route, hm] at h
    exact Outcome.noConfusion h
  | noMatch =>
    simp only [route, hm] at h
    exact Outcome.noConfusion h
  | oauthTokenRoute =>
    simp only [route, hm] at h
    rw [oauthToken] at h
    split at h
    · exact Outcome.noConfusion h
    · exact Outcome.noConfusion h
  | fhirProxy =>
    simp only [route, hm] at h
    cases hx : authenticateToken req.authorization cfg.jwtSecret now with
    | missing => rw [withAuth, hx] at h; exact Outcome.noConfusion h
    | invalid => rw [withAuth, hx] at h; exact Outcome.noConfusion h
    | ok p =>
      rw [withAuth, hx] at h
      have := (Outcome.proxy.injEq _ _ _ _ _ _).mp h
      exact this.2.2.symm ▸ rfl
  | hl7Proxy =>
    simp only [route, hm] at h
    cases hx : authenticateToken req.authorization cfg.jwtSecret now with
    | missing => rw [withAuth, hx] at h; exact Outcome.noConfusion h
    | invalid => rw [withAuth, hx] at h; exact Outcome.noConfusion h
    | ok p =>
      rw [withAuth, hx] at h
      have := (Outcome.proxy.injEq _ _ _ _ _ _).mp h
      exact absurd this.1 (by decide)
  | hl7Message =>
    simp only [route, hm] at h
    cases hx : authenticateToken req.authorization cfg.jwtSecret now with
    | missing => rw [withAuth, hx] at h; exact Outcome.noConfusion h
    | invalid => rw [withAuth, hx] at h; exact Outcome.noConfusion h
    | ok p =>
      rw [withAuth, hx] at h
      have h' : hl7MessageHandler now req.body = .proxy .fhir url a := h
      rw [hl7MessageHandler] at h'
      split at h'
      · exact Outcome.noConfusion h'
      · exact Outcome.noConfusion h'
  | epicProxy =>
    simp only [route, hm] at h
    cases hx : authenticateToken req.authorization cfg.jwtSecret now with
    | missing => rw [withAuth, hx] at h; exact Outcome.noConfusion h
    | invalid => rw [withAuth, hx] at h; exact Outcome.noConfusion h
    | ok p =>
      rw [withAuth, hx] at h
      have := (Outcome.proxy.injEq _ _ _ _ _ _).mp h
      exact absurd this.1 (by decide)
  | auditProxy =>
    simp only [route, hm] at h
    cases hx : authenticateToken req.authorization cfg.jwtSecret now with
    | missing => rw [withAuth, hx] at h; exact Outcome.noConfusion h
    | invalid => rw [withAuth, hx] at h; exact Outcome.noConfusion h
    | ok p =>
      rw [withAuth, hx] at h
      have := (Outcome.proxy.injEq _ _ _ _ _ _).mp h
      exact absurd this.1 (by decide)

/-- C6 amended witness: at `cfgEx`, the authenticated `GET /fhir/Patient`
dispatch carries the compiled-in credential. -/
theorem c6_credential_always_admin_witness :
    (fhirProxyOptions cfgEx).auth = some fhirAuthCredential ∧
    fhirAuthCredential = "admin:admin123" ∧
    (route cfgEx 10 reqFhirEx).1.isProxy = true ∧
    ((route cfgEx 10 reqFhirEx).1 =
        .proxy .fhir cfgEx.fhirServerUrl (some "admin:admin123")) ∧
    some "admin:admin123" = some "admin:admin123" :=
  ⟨(c6_credential_always_admin cfgEx).1, (c6_credential_always_admin cfgEx).2.1,
   by decide, by decide,
   (c6_credential_always_admin cfgEx).2.2 10 reqFhirEx cfgEx.fhirServerUrl
     (some "admin:admin123") (by decide) ▸ rfl⟩

/-- C7 counterexample: the `onError` handler does answer 502 with a
structured `{error, message}` body, but the `message` field is the upstream
error's `err.message` verbatim, so a connection-refused error naming the
internal host and port is exposed to the client unchanged. -/
theorem c7_counterexample_leaky_message :
    (fhirOnError leakErrEx).1 = 502 ∧
    (fhirOnError leakErrEx).2.error = "FHIR service temporarily unavailable" ∧
    (fhirOnError leakErrEx).2.message = leakErrEx ∧
    isInfixB "fhir-server:8084".toList
      ((fhirOnError leakErrEx).2.message.toList) = true := by
  refine ⟨rfl, rfl, rfl, by decide⟩

/-- C7 amended: on upstream connection failure each proxy mount answers 502
with a structured `{error, message}` body whose `error` is a fixed
service-specific phrase — but `message` is `err.message` verbatim (the full
internal error detail, which can contain internal hostnames and ports),
not a sanitized message; the same detail is also what is logged
internally. -/
theorem c7_upstream_error_shape (e : String) :
    fhirOnError e = (502, ⟨"FHIR service temporarily unavailable", e⟩) ∧
    hl7OnError e = (502, ⟨"HL7 processor service temporarily unavailable", e⟩) ∧
    epicOnError e = (502, ⟨"EPIC connector service temporarily unavailable", e⟩) ∧
    auditOnError e = (502, ⟨"Audit service temporarily unavailable", e⟩) :=
  ⟨rfl, rfl, rfl, rfl⟩

/-- C8: rejected requests produce no audit record at all — a missing-token
401 on a protected route, a failed token issuance, a throttled request and
an unmatched 404 each emit zero audit records and zero issuance log
entries; only a rejected issuance shows the same (`oauthToken` logs only on
success). -/
theorem c8_rejections_produce_no_audit :
    route cfgEx 10 { reqFhirEx with authorization := none } =
      (.respond 401 (.jsonError "Access token required"), noEffects) ∧
    (oauthToken cfgEx 10 badTokenBody).2 = noEffects ∧
    (oauthToken cfgEx 10 goodTokenBody).2 = ⟨[], ["c1"]⟩ ∧
    (gateway cfgEx 10 [("1.2.3.4", ⟨100, 5⟩)] reqFhirEx).1 =
      .respond 429 (.text rateLimitMessage) ∧
    (gateway cfgEx 10 [("1.2.3.4", ⟨100, 5⟩)] reqFhirEx).2.1 = noEffects ∧
    route cfgEx 10 ⟨"GET", "/nosuch", none, "1.2.3.4", none, emptyBody⟩ =
      (.respond 404 (.jsonError "Endpoint not found"), noEffects) ∧
    noEffects.audits = [] ∧ noEffects.oauthLogs = [] := by
  refine ⟨by decide, by decide, by decide, by decide, by decide, by decide,
    rfl, rfl⟩

/-- C9: the audit record of an authenticated request never identifies the
caller — the claims object signed by the token endpoint has no `id` key, so
`req.user?.id || 'anonymous'` is `'anonymous'` for every principal; the
record emitted for an authenticated `GET /fhir/Patient` under client `c1`
carries `userId = "anonymous"` (and the `AuditData` record has no outcome
field at all, being emitted before dispatch). -/
theorem c9_audit_principal_always_anonymous :
    (∀ p : JwtPayload, p.jsGet "id" = none) ∧
    (∀ p : JwtPayload,
      jsOrString ((some p).bind (fun q => q.jsGet "id")) "anonymous" =
        "anonymous") ∧
    (∀ (now : Nat) (req : Request) (p : JwtPayload),
      (mkAudit now req (some p)).userId = "anonymous") ∧
    (route cfgEx 10 reqFhirEx).2.audits =
      [⟨10, "GET", "/fhir/Patient", "1.2.3.4", some "curl/8", "anonymous"⟩] ∧
    pEx.client_id = "c1" ∧
    ("anonymous" : String) ≠ "c1" := by
  refine ⟨fun p => rfl, fun p => rfl, fun now req p => rfl, by decide, rfl,
    by decide⟩

end Gateway
